import Mathlib

/-!
A verification development for the `sentinel2array` crate.

The embedding covers `src/lib.rs` (error taxonomy, `BandInfo`, `Raster`
discovery and `Raster::read_bands`) and `src/components/band.rs`
(`BandGroup`, the generic `BandInfo` and the resolution-deduplicating
`Bands` map).  Modelling conventions, stated once here:

* `f64` values (geo-transform coefficients, pixel coordinates) are
  modelled as exact rationals `ℚ`; the numeric comparisons performed by
  the code (`<` on `m11`, `try_inverse`'s singularity test) are exact in
  the domain of interest (small decimal pixel sizes).
* `u16` sample values are modelled as `ℕ` (no arithmetic is performed on
  them by the core), `usize`/`u8` casts of floats are modelled with the
  saturating truncation Rust performs.
* Rust `HashMap`s are modelled as association lists whose key order is
  first-insertion order and whose `insert` replaces in place; `HashSet`
  is modelled as a first-occurrence-deduplicated list.  Rust leaves hash
  iteration order unspecified; this model fixes the canonical
  insertion order.
* `rayon` parallel `filter`/`map`/`collect` pipelines are modelled
  sequentially in input order (rayon preserves index order for ordered
  collects; on failure the model surfaces the first failure in input
  order).
* GDAL / `rasters` / `ndarray` are external collaborators.  Their
  behaviour visible to the core (fallible `description`, `geo_transform`,
  dataset opening, windowed reads, `transform_window`) is modelled from
  the interface the spec describes, as an explicit environment record.
* A Rust `panic` (from `.unwrap()` or an out-of-bounds `ndarray` index)
  is modelled as the distinguished outcome `RunResult.panics`, distinct
  from returning a typed error.
-/

namespace Sentinel2Array

/-! ## Strings: Rust `str::contains` -/

/-- Does `hay` start with `needle` (character-wise)? -/
def listStarts : List Char → List Char → Bool
  | _, [] => true
  | [], _ :: _ => false
  | c :: cs, d :: ds => c = d && listStarts cs ds

/-- Substring containment on character lists. -/
def listContainsSub : List Char → List Char → Bool
  | [], needle => needle.isEmpty
  | c :: rest, needle => listStarts (c :: rest) needle || listContainsSub rest needle

/-- Model of Rust `str::contains(needle)`. -/
def strContainsSub (hay needle : String) : Bool :=
  listContainsSub hay.toList needle.toList

/-! ## Association lists: the model of `HashMap` -/

/-- `HashMap::insert`: replace the value at the first occurrence of the key,
keeping its position, or append a fresh entry.  Key order is
first-insertion order, the canonical order this model gives to the
(unspecified) Rust hash iteration order. -/
def alInsert {α : Type} : List (String × α) → String → α → List (String × α)
  | [], k, v => [(k, v)]
  | (k', v') :: m, k, v =>
    if k' = k then (k', v) :: m else (k', v') :: alInsert m k v

/-- `HashMap::get`. -/
def alLookup {α : Type} : String → List (String × α) → Option α
  | _, [] => none
  | k, (k', v) :: m => if k' = k then some v else alLookup k m

/-- `HashMap::from_iter` over `(key, value)` pairs: fold `insert` over the
pairs in order (later pairs overwrite earlier ones at the same key). -/
def alFromList {α : Type} (ps : List (String × α)) : List (String × α) :=
  ps.foldl (fun m p => alInsert m p.1 p.2) []

/-- `HashSet`-collect: first-occurrence deduplication, in input order. -/
def dedupFirst (l : List String) : List String :=
  l.foldl (fun acc s => if s ∈ acc then acc else acc ++ [s]) []

/-! ## Pixel transforms (`rasters::prelude::PixelTransform`, nalgebra 3×3 affine) -/

/-- A 3×3 affine pixel transform; the bottom row is implicitly `0 0 1`.
Coefficients are exact rationals modelling the `f64` entries. -/
structure PixelTransform where
  m11 : ℚ
  m12 : ℚ
  m13 : ℚ
  m21 : ℚ
  m22 : ℚ
  m23 : ℚ
deriving DecidableEq

/-- A GDAL 6-element geo-transform `[gt0, …, gt5]`. -/
structure GeoTransform where
  gt0 : ℚ
  gt1 : ℚ
  gt2 : ℚ
  gt3 : ℚ
  gt4 : ℚ
  gt5 : ℚ
deriving DecidableEq

/-- Modelled from the spec: `transform_from_gdal` of the external
`rasters` crate builds the affine with row one `(gt1, gt2, gt0)` and row
two `(gt4, gt5, gt3)`, so `m11 = gt1` is the x pixel size. -/
def transform_from_gdal (g : GeoTransform) : PixelTransform :=
  ⟨g.gt1, g.gt2, g.gt0, g.gt4, g.gt5, g.gt3⟩

/-- Modelled from the spec: affine composition of the external affine
library (matrix product of the two 3×3 matrices). -/
def PixelTransform.comp (a b : PixelTransform) : PixelTransform :=
  ⟨a.m11 * b.m11 + a.m12 * b.m21,
   a.m11 * b.m12 + a.m12 * b.m22,
   a.m11 * b.m13 + a.m12 * b.m23 + a.m13,
   a.m21 * b.m11 + a.m22 * b.m21,
   a.m21 * b.m12 + a.m22 * b.m22,
   a.m21 * b.m13 + a.m22 * b.m23 + a.m23⟩

instance : Mul PixelTransform := ⟨PixelTransform.comp⟩

/-- Determinant of the 3×3 matrix (bottom row `0 0 1`). -/
def PixelTransform.det (t : PixelTransform) : ℚ :=
  t.m11 * t.m22 - t.m12 * t.m21

/-- Modelled from the spec: nalgebra `try_inverse`, `none` exactly when
the matrix is singular (exact-rational model of the float test). -/
def PixelTransform.tryInverse (t : PixelTransform) : Option PixelTransform :=
  if t.det = 0 then none
  else
    some ⟨t.m22 / t.det, -t.m12 / t.det, (t.m12 * t.m23 - t.m22 * t.m13) / t.det,
          -t.m21 / t.det, t.m11 / t.det, (t.m21 * t.m13 - t.m11 * t.m23) / t.det⟩

/-- Modelled from the spec: `Transform2::transform_point` on `(x, y)`. -/
def PixelTransform.transformPoint (t : PixelTransform) (x y : ℚ) : ℚ × ℚ :=
  (t.m11 * x + t.m12 * y + t.m13, t.m21 * x + t.m22 * y + t.m23)

/-- Rust `f64 as usize`: truncation toward zero, saturating below at `0`
(the upper saturation bound is irrelevant here). -/
def ratAsUsize (q : ℚ) : ℕ :=
  if q < 0 then 0 else q.floor.toNat

/-- Rust `f64 as u8`: truncation toward zero, saturating into `[0, 255]`. -/
def ratAsU8 (q : ℚ) : ℕ :=
  if q < 0 then 0 else min 255 q.floor.toNat

/-! ## The GDAL environment

Everything the core obtains from GDAL is packaged as explicit data:
datasets are records of the answers GDAL would give, and a `GdalEnv`
resolves paths to datasets.  Fallible GDAL calls carry `Except GdalErr`. -/

/-- Opaque model of `gdal::errors::GdalError`. -/
structure GdalErr where
  msg : String
deriving DecidableEq

/-- One `(domain, key, value)` metadata entry. -/
structure MetaEntry where
  domain : String
  key : String
  value : String
deriving DecidableEq

/-- A subdataset as seen through GDAL during discovery: its (fallible)
description string, (fallible) geo-transform, projection string and
raster bands, each band being a (fallible) list of metadata entries;
`closeResult` models the fallible `Dataset::close`. -/
structure SubDataset where
  descr : Except GdalErr String
  geoTransform : Except GdalErr GeoTransform
  projection : String
  rasterbands : List (Except GdalErr (List MetaEntry))
  closeResult : Except GdalErr Unit

/-- The product dataset: its metadata entries and (fallible) description. -/
structure ProductDataset where
  descr : Except GdalErr String
  entries : List MetaEntry

/-- A dataset as seen when a band is read back: raster extent and, per
1-based band index, the `u16` sample at absolute `(col, row)`. -/
structure RasterData where
  rasterSize : ℕ × ℕ
  band : ℕ → ℤ → ℤ → ℕ

/-- The ambient GDAL world: `Dataset::open` for the product, for each
subdataset identifier during discovery, and for each band path at read
time.  A deterministic function, so reopening a path yields the same
dataset, as the code assumes. -/
structure GdalEnv where
  openProduct : String → Except GdalErr ProductDataset
  openSub : String → Except GdalErr SubDataset
  openRead : String → Except GdalErr RasterData

/-! ## Error taxonomy (`RasterError` of `src/lib.rs`) -/

/-- `RasterError`.  `ProjError`, `RastersError` and `ShapeError` wrap
external errors whose payloads are opaque strings here. -/
inductive RasterError where
  | GdalError : GdalErr → RasterError
  | ProjError : String → RasterError
  | RastersError : String → RasterError
  | ShapeError : String → RasterError
  | BandNotFound : String → RasterError
  | BandTransformNotInvertible : String → RasterError
  | MetadataKeyNotFound : String → String → RasterError
  | MultipleProjectionsInDataset : String → RasterError
deriving DecidableEq

/-- Outcome of running a fallible Rust function that may also panic:
either a panic, or a returned `Result`. -/
inductive RunResult (α : Type) where
  | panics : RunResult α
  | done : Except RasterError α → RunResult α

/-! ## `BandInfo` and `Raster` (`src/lib.rs`) -/

/-- `BandInfo` of `src/lib.rs`: 1-based band index, owning subdataset
path, band metadata, projection string, subdataset geo-transform. -/
structure BandInfo where
  index : ℕ
  path : String
  metadata : List (String × String)
  proj : String
  geo_transform : PixelTransform
deriving DecidableEq

/-- `Raster` of `src/lib.rs`. -/
structure Raster where
  path : String
  bands_info : List (String × BandInfo)
  metadata : List (String × String)
  proj : String
  highest_resolution_transform : PixelTransform
deriving DecidableEq

/-! ## Discovery (`Raster::parse_dataset`, `parse_subdataset`, `Raster::new`) -/

/-- The band-metadata loop body: entries in the empty domain are inserted
into the band's metadata map. -/
def bandMetaOf (entries : List MetaEntry) : List (String × String) :=
  entries.foldl (fun md e => if e.domain = "" then alInsert md e.key e.value else md) []

/-- The per-band loop of `parse_subdataset`: enumerate raster bands with
0-based `idx`, collect empty-domain metadata, extract `BANDNAME` (absence
is `MetadataKeyNotFound`), and emit `(name, BandInfo)` with index
`idx + 1`. -/
def parseBandsLoop (path : String) (geo : PixelTransform) (proj : String) :
    List (Except GdalErr (List MetaEntry)) → ℕ → Except RasterError (List (String × BandInfo))
  | [], _ => .ok []
  | rb :: rbs, idx =>
    match rb with
    | .error e => .error (.GdalError e)
    | .ok entries =>
      let md := bandMetaOf entries
      match alLookup "BANDNAME" md with
      | none => .error (.MetadataKeyNotFound path "BANDNAME")
      | some name =>
        match parseBandsLoop path geo proj rbs (idx + 1) with
        | .error e => .error e
        | .ok rest =>
          .ok ((name, { index := idx + 1, path := path, metadata := md,
                        proj := proj, geo_transform := geo }) :: rest)

/-- `Raster::parse_subdataset`: read the subdataset's description and
geo-transform, loop over its bands, then close the dataset. -/
def parse_subdataset (d : SubDataset) : Except RasterError (List (String × BandInfo)) :=
  match d.descr with
  | .error e => .error (.GdalError e)
  | .ok dataset_path =>
    match d.geoTransform with
    | .error e => .error (.GdalError e)
    | .ok gt =>
      match parseBandsLoop dataset_path (transform_from_gdal gt) d.projection d.rasterbands 0 with
      | .error e => .error e
      | .ok bs =>
        match d.closeResult with
        | .error e => .error (.GdalError e)
        | .ok _ => .ok bs

/-- The metadata walk of `Raster::parse_dataset`: empty-domain entries
populate the product metadata; `SUBDATASETS`-domain entries whose key
contains `"NAME"` are opened as child datasets; everything else is
skipped. -/
def parseDatasetLoop (env : GdalEnv) :
    List MetaEntry → List (String × String) → List SubDataset →
    Except RasterError (List (String × String) × List SubDataset)
  | [], md, subs => .ok (md, subs)
  | e :: es, md, subs =>
    if e.domain = "" then parseDatasetLoop env es (alInsert md e.key e.value) subs
    else if e.domain = "SUBDATASETS" then
      if strContainsSub e.key "NAME" then
        match env.openSub e.value with
        | .error er => .error (.GdalError er)
        | .ok s => parseDatasetLoop env es md (subs ++ [s])
      else parseDatasetLoop env es md subs
    else parseDatasetLoop env es md subs

/-- `Raster::parse_dataset`. -/
def parse_dataset (env : GdalEnv) (pd : ProductDataset) :
    Except RasterError (List (String × String) × List SubDataset) :=
  parseDatasetLoop env pd.entries [] []

/-- The subdataset pipeline of `Raster::new`:
`subdatasets.into_par_iter().filter(|d| !d.description().unwrap().contains("TCI"))
.map(parse_subdataset).collect::<Result<Vec<_>>>()` followed by `flatten`,
modelled sequentially in input order.  The `.unwrap()` on `description()`
is the panic path: a failing description panics instead of returning an
error. -/
def collectSubBands : List SubDataset → RunResult (List (String × BandInfo))
  | [] => .done (.ok [])
  | d :: rest =>
    match d.descr with
    | .error _ => .panics
    | .ok s =>
      if strContainsSub s "TCI" then collectSubBands rest
      else
        match parse_subdataset d with
        | .error e => .done (.error e)
        | .ok bs =>
          match collectSubBands rest with
          | .panics => .panics
          | .done (.error e) => .done (.error e)
          | .done (.ok rest') => .done (.ok (bs ++ rest'))

/-- The combiner of the `reduce` in `Raster::new`:
`|prev, next| if prev.m11 < next.m11 { prev } else { next }`. -/
def pickHighestRes (prev next : PixelTransform) : PixelTransform :=
  if prev.m11 < next.m11 then prev else next

/-- The reference-transform computation of `Raster::new`:
`values().map(geo_transform).reduce(pickHighestRes)`. -/
def reduceHighestRes : List PixelTransform → Option PixelTransform
  | [] => none
  | t :: ts => some (ts.foldl pickHighestRes t)

/-- `Raster::new`: open the product, walk its metadata, parse the
non-TCI subdatasets in parallel, fold the emitted pairs into the band
map, validate the single-CRS invariant, and pick the reference
transform.  The two guarded `.unwrap()`s (on `reduce` and on
`drain().last()`) are modelled as panic branches. -/
def Raster.new (env : GdalEnv) (path : String) : RunResult Raster :=
  match env.openProduct path with
  | .error e => .done (.error (.GdalError e))
  | .ok pd =>
    match parse_dataset env pd with
    | .error e => .done (.error e)
    | .ok (metadata, subs) =>
      match collectSubBands subs with
      | .panics => .panics
      | .done (.error e) => .done (.error e)
      | .done (.ok pairs) =>
        let bands_info := alFromList pairs
        let projs := dedupFirst (bands_info.map (fun p => p.2.proj))
        match projs.length with
        | 1 =>
          match reduceHighestRes (bands_info.map (fun p => p.2.geo_transform)) with
          | none => .panics
          | some hrt =>
            match projs.getLast? with
            | none => .panics
            | some p =>
              .done (.ok { path := path, bands_info := bands_info, metadata := metadata,
                           proj := p, highest_resolution_transform := hrt })
        | _ =>
          match pd.descr with
          | .error e => .done (.error (.GdalError e))
          | .ok d => .done (.error (.MultipleProjectionsInDataset d))

/-! ## The read path (`Raster::band_info`, `bands_info`, `read_bands`) -/

/-- `Raster::band_info`. -/
def Raster.band_info (r : Raster) (band : String) : Except RasterError BandInfo :=
  match alLookup band r.bands_info with
  | some bi => .ok bi
  | none => .error (.BandNotFound band)

/-- `Raster::bands_info`: resolve every requested name (in parallel in
the source; first failure in input order here). -/
def Raster.resolveBands (r : Raster) : List String → Except RasterError (List (String × BandInfo))
  | [] => .ok []
  | b :: bs =>
    match r.band_info b with
    | .error e => .error e
    | .ok bi =>
      match r.resolveBands bs with
      | .error e => .error e
      | .ok rest => .ok ((b, bi) :: rest)

/-- A 2-D `u16` array (`ndarray::Array2`): a shape and a total cell
function (the function's values beyond the shape are never used by
in-bounds reads). -/
structure Array2 where
  shape : ℕ × ℕ
  get : ℕ → ℕ → ℕ

/-- A 3-D `u16` array (`ndarray::Array3`). -/
structure Array3 where
  shape : ℕ × ℕ × ℕ
  get : ℕ → ℕ → ℕ → ℕ

/-- Modelled from the spec: `transform_window` of the external `rasters`
crate (the in-scope behaviour §4.1 describes).  Take the images of the
four window corners under `t`, form the integer bounding box (floor of
the min, ceiling of the max), clamp it to the source extent, and return
the clamped offset and size. -/
def transform_window (ow : (ℤ × ℤ) × (ℕ × ℕ)) (t : PixelTransform) (extent : ℕ × ℕ) :
    (ℤ × ℤ) × (ℕ × ℕ) :=
  let ox : ℚ := (ow.1.1 : ℚ)
  let oy : ℚ := (ow.1.2 : ℚ)
  let sx : ℚ := (ow.2.1 : ℚ)
  let sy : ℚ := (ow.2.2 : ℚ)
  let c1 := t.transformPoint ox oy
  let c2 := t.transformPoint (ox + sx) oy
  let c3 := t.transformPoint ox (oy + sy)
  let c4 := t.transformPoint (ox + sx) (oy + sy)
  let xmin := (min (min c1.1 c2.1) (min c3.1 c4.1)).floor
  let xmax := (max (max c1.1 c2.1) (max c3.1 c4.1)).ceil
  let ymin := (min (min c1.2 c2.2) (min c3.2 c4.2)).floor
  let ymax := (max (max c1.2 c2.2) (max c3.2 c4.2)).ceil
  let cx : ℤ → ℤ := fun v => max 0 (min (extent.1 : ℤ) v)
  let cy : ℤ → ℤ := fun v => max 0 (min (extent.2 : ℤ) v)
  ((cx xmin, cy ymin), ((cx xmax - cx xmin).toNat, (cy ymax - cy ymin).toNat))

/-- Modelled from the spec: `ChunkReader::read_as_array` of the external
`rasters` crate reads the rectangular `window` of band `idx` at `offset`
as a 2-D array; cell `(i, j)` holds the source sample at
`offset + (i, j)`. -/
def read_as_array (rd : RasterData) (idx : ℕ) (offset : ℤ × ℤ) (window : ℕ × ℕ) : Array2 :=
  { shape := window, get := fun i j => rd.band idx (offset.1 + i) (offset.2 + j) }

/-- The per-band body of `read_bands`: invert the band's geo-transform
(`BandTransformNotInvertible` when singular), compose with the reference
transform, compute the corrected source window against the band
dataset's extent, reopen the dataset and read the window. -/
def perBandRead (env : GdalEnv) (hrt : PixelTransform) (offset : ℤ × ℤ) (window : ℕ × ℕ)
    (p : String × BandInfo) : Except RasterError (Array2 × PixelTransform) :=
  match p.2.geo_transform.tryInverse with
  | none => .error (.BandTransformNotInvertible p.1)
  | some inv =>
    let transform := inv * hrt
    match env.openRead p.2.path with
    | .error e => .error (.GdalError e)
    | .ok rd =>
      let cw := transform_window (offset, window) transform rd.rasterSize
      match env.openRead p.2.path with
      | .error e => .error (.GdalError e)
      | .ok rd2 => .ok (read_as_array rd2 p.2.index cw.1 cw.2, transform)

/-- The parallel band-read collect of `read_bands`, modelled sequentially
in input order. -/
def perBandReads (env : GdalEnv) (hrt : PixelTransform) (offset : ℤ × ℤ) (window : ℕ × ℕ) :
    List (String × BandInfo) → Except RasterError (List (Array2 × PixelTransform))
  | [] => .ok []
  | p :: ps =>
    match perBandRead env hrt offset window p with
    | .error e => .error e
    | .ok br =>
      match perBandReads env hrt offset window ps with
      | .error e => .error e
      | .ok rest => .ok (br :: rest)

/-- Placeholder pair used by `List.getD` for the (unreachable)
out-of-range channel index. -/
def dummyBr : Array2 × PixelTransform :=
  ({ shape := (0, 0), get := fun _ _ => 0 }, ⟨0, 0, 0, 0, 0, 0⟩)

/-- One output cell of the assembly closure: transform `(x, y)` by the
band's composed transform, cast with `as usize`, and index the *window*
array there.  `none` models the `ndarray` out-of-bounds panic. -/
def assembleCell (br : Array2 × PixelTransform) (x y : ℕ) : Option ℕ :=
  let uv := br.2.transformPoint (x : ℚ) (y : ℚ)
  let i := ratAsUsize uv.1
  let j := ratAsUsize uv.2
  if i < br.1.shape.1 ∧ j < br.1.shape.2 then some (br.1.get i j) else none

/-- Does every cell of the output cube index its band's window array in
bounds?  (`Array3::from_shape_fn` evaluates the closure at every index;
any out-of-bounds access panics.) -/
def allCellsOk (n : ℕ) (win : ℕ × ℕ) (brs : List (Array2 × PixelTransform)) : Bool :=
  (List.range n).all fun c =>
    (List.range win.1).all fun x =>
      (List.range win.2).all fun y => (assembleCell (brs.getD c dummyBr) x y).isSome

/-- `Array3::from_shape_fn((bands.len(), window.0, window.1), …)` with the
assembly closure of `read_bands`; panics when any cell indexes out of
bounds. -/
def assemble (n : ℕ) (win : ℕ × ℕ) (brs : List (Array2 × PixelTransform)) : RunResult Array3 :=
  if allCellsOk n win brs then
    .done (.ok { shape := (n, win.1, win.2),
                 get := fun c x y => (assembleCell (brs.getD c dummyBr) x y).getD 0 })
  else .panics

/-- `Raster::read_bands`. -/
def Raster.read_bands (env : GdalEnv) (r : Raster) (bands : List String)
    (offset : ℤ × ℤ) (window : ℕ × ℕ) : RunResult Array3 :=
  match r.resolveBands bands with
  | .error e => .done (.error e)
  | .ok infos =>
    match perBandReads env r.highest_resolution_transform offset window infos with
    | .error e => .done (.error e)
    | .ok brs => assemble bands.length window brs

/-! ## `src/components/band.rs`: `BandGroup`, `BandInfo`, `Bands`

This module is present in the repository but not wired into `lib.rs`
(no `mod components`); its deduplicating `Bands::insert` is embedded
here because claim C1 cites it. -/

/-- `BandGroup` of `band.rs`. -/
structure BandGroup where
  gdal_dataset_path : String
  crs : String
  geo_transform : PixelTransform
deriving DecidableEq

/-- `BandInfo<BM>` of `band.rs`, with the metadata parameter instantiated
to the string map the crate uses. -/
structure BandInfoB where
  index : ℕ
  group : BandGroup
  metadata : List (String × String)
deriving DecidableEq

/-- `BandInfo::resolution`: `self.group.geo_transform.m11 as u8`. -/
def BandInfoB.resolution (b : BandInfoB) : ℕ :=
  ratAsU8 b.group.geo_transform.m11

/-- `Bands::insert`: keep the occupied entry when its (truncated)
resolution is strictly smaller than the incoming one's, otherwise
`insert_entry` the incoming value. -/
def bandsInsert (m : List (String × BandInfoB)) (k : String) (v : BandInfoB) :
    List (String × BandInfoB) :=
  match alLookup k m with
  | some v' => if v'.resolution < v.resolution then m else alInsert m k v
  | none => alInsert m k v

/-- `Bands::from_iter`: fold `Bands::insert` over the pairs. -/
def bandsFromIter (ps : List (String × BandInfoB)) : List (String × BandInfoB) :=
  ps.foldl (fun m p => bandsInsert m p.1 p.2) []

/-! ## Observers

Small projections used to state concrete facts about `RunResult` values
without needing decidable equality of function-valued arrays. -/

/-- The `m11` of the retained band of a given name, when discovery succeeded. -/
def retainedM11 (res : RunResult Raster) (name : String) : Option ℚ :=
  match res with
  | .done (.ok r) => (alLookup name r.bands_info).map (fun bi => bi.geo_transform.m11)
  | _ => none

/-- The reference transform of a successfully opened raster. -/
def refTOf (res : RunResult Raster) : Option PixelTransform :=
  match res with
  | .done (.ok r) => some r.highest_resolution_transform
  | _ => none

/-- The typed error of a run that returned one. -/
def errOf {α : Type} (res : RunResult α) : Option RasterError :=
  match res with
  | .done (.error e) => some e
  | _ => none

/-- One cell of a successfully read cube. -/
def cellOf (res : RunResult Array3) (c x y : ℕ) : Option ℕ :=
  match res with
  | .done (.ok a) => some (a.get c x y)
  | _ => none

/-- The shape of a successfully read cube. -/
def shape3Of (res : RunResult Array3) : Option (ℕ × ℕ × ℕ) :=
  match res with
  | .done (.ok a) => some a.shape
  | _ => none

/-! ## Concrete fixtures

Small synthetic products and rasters used to witness or refute the
claims.  Pixel sizes follow the spec's fixtures (10 m and 20 m bands),
source sample values are `10·col + row` (plus an offset where a
non-zero corner value is useful). -/

/-- 10 m geo-transform with origin `(0, 0)`. -/
def gt10 : GeoTransform := ⟨0, 10, 0, 0, 0, 10⟩

/-- 20 m geo-transform with origin `(0, 0)`. -/
def gt20 : GeoTransform := ⟨0, 20, 0, 0, 0, 20⟩

/-- 20 m geo-transform with origin `(-25, -25)`: its composed per-band
transform against a 10 m reference has a non-zero translation. -/
def gt20shift : GeoTransform := ⟨-25, 20, 0, -25, 0, 20⟩

/-- The 10 m reference transform. -/
def tRef10 : PixelTransform := transform_from_gdal gt10

/-- A 10 m subdataset carrying band `B2`. -/
def sub10 : SubDataset := ⟨.ok "S10", .ok gt10, "E", [.ok [⟨"", "BANDNAME", "B2"⟩]], .ok ()⟩

/-- A 20 m subdataset also carrying band `B2` (name collision). -/
def sub20 : SubDataset := ⟨.ok "S20", .ok gt20, "E", [.ok [⟨"", "BANDNAME", "B2"⟩]], .ok ()⟩

/-- Product listing `sub10` then `sub20`. -/
def pdC1 : ProductDataset :=
  ⟨.ok "P1", [⟨"SUBDATASETS", "SUBDATASET_1_NAME", "S10"⟩,
              ⟨"SUBDATASETS", "SUBDATASET_2_NAME", "S20"⟩]⟩

def envC1 : GdalEnv :=
  ⟨fun p => if p = "P1" then .ok pdC1 else .error ⟨"open"⟩,
   fun p => if p = "S10" then .ok sub10 else if p = "S20" then .ok sub20 else .error ⟨"open"⟩,
   fun _ => .error ⟨"open"⟩⟩

/-- Two distinct bands tied at 10 m but with different transforms. -/
def subB2Tie : SubDataset := ⟨.ok "SA", .ok gt10, "E", [.ok [⟨"", "BANDNAME", "B2"⟩]], .ok ()⟩

def subB3Tie : SubDataset :=
  ⟨.ok "SB", .ok ⟨5, 10, 0, 0, 0, 10⟩, "E", [.ok [⟨"", "BANDNAME", "B3"⟩]], .ok ()⟩

def pdC2 : ProductDataset :=
  ⟨.ok "P2", [⟨"SUBDATASETS", "SUBDATASET_1_NAME", "SA"⟩,
              ⟨"SUBDATASETS", "SUBDATASET_2_NAME", "SB"⟩]⟩

def envC2 : GdalEnv :=
  ⟨fun p => if p = "P2" then .ok pdC2 else .error ⟨"open"⟩,
   fun p => if p = "SA" then .ok subB2Tie else if p = "SB" then .ok subB3Tie
            else .error ⟨"open"⟩,
   fun _ => .error ⟨"open"⟩⟩

/-- The raster `Raster::new envC2 "P2"` evaluates to. -/
def rC2 : Raster :=
  ⟨"P2",
   [("B2", ⟨1, "SA", [("BANDNAME", "B2")], "E", ⟨10, 0, 0, 0, 10, 0⟩⟩),
    ("B3", ⟨1, "SB", [("BANDNAME", "B3")], "E", ⟨10, 0, 5, 0, 10, 0⟩⟩)],
   [], "E", ⟨10, 0, 5, 0, 10, 0⟩⟩

/-- Source sample values `10·col + row + 7`. -/
def srcVal (c r : ℤ) : ℕ := (10 * c + r + 7).toNat

/-- Retained `B2` (10 m) of the read fixture. -/
def infoB2f : BandInfo := ⟨1, "S10", [("BANDNAME", "B2")], "E", transform_from_gdal gt10⟩

/-- Retained `B4` (20 m, shared origin) of the read fixture. -/
def infoB4f : BandInfo := ⟨1, "S20", [("BANDNAME", "B4")], "E", transform_from_gdal gt20⟩

/-- A raster with a 10 m `B2` and a 20 m `B4`, reference at 10 m. -/
def rFix : Raster := ⟨"P", [("B2", infoB2f), ("B4", infoB4f)], [], "E", tRef10⟩

/-- The band-read world of the read fixture. -/
def envFix : GdalEnv :=
  ⟨fun _ => .error ⟨"o"⟩, fun _ => .error ⟨"o"⟩,
   fun p => if p = "S20" then .ok ⟨(50, 50), fun _ c r => srcVal c r⟩
            else if p = "S10" then .ok ⟨(100, 100), fun _ c r => srcVal c r⟩
            else .error ⟨"o"⟩⟩

/-- The `S20` dataset of the read fixture as `read_bands` reopens it. -/
def rdS20 : RasterData := ⟨(50, 50), fun _ c r => srcVal c r⟩

/-- The composed `B4`-to-reference transform: scaling by `1/2`. -/
def tHalfFix : PixelTransform := ⟨1/2, 0, 0, 0, 1/2, 0⟩

/-- The 1×1 window array `read_bands` reads for `B4` at offset `(0,0)`,
size `(2,2)`. -/
def arrB4 : Array2 := read_as_array rdS20 1 (0, 0) (1, 1)

def infosB4 : List (String × BandInfo) := [("B4", infoB4f)]

def brsB4 : List (Array2 × PixelTransform) := [(arrB4, tHalfFix)]

/-- A band with a singular geo-transform built from `(7, 0, 0, 9, 0, 0)`. -/
def infoSing : BandInfo :=
  ⟨1, "SS", [("BANDNAME", "S")], "E", transform_from_gdal ⟨7, 0, 0, 9, 0, 0⟩⟩

/-- A raster holding a readable `B2` and the singular band `S`. -/
def rSing : Raster := ⟨"P", [("B2", infoB2f), ("S", infoSing)], [], "E", tRef10⟩

/-- Source sample values `10·col + row` for the shifted-origin fixture. -/
def srcValC (c r : ℤ) : ℕ := (10 * c + r).toNat

/-- A 20 m band whose origin is shifted by `(-25, -25)`. -/
def infoBc : BandInfo := ⟨1, "SC", [("BANDNAME", "B")], "E", transform_from_gdal gt20shift⟩

/-- Raster with the shifted band `B` under a 10 m reference. -/
def rCex : Raster := ⟨"P", [("B2", infoB2f), ("B", infoBc)], [], "E", tRef10⟩

def envCex : GdalEnv :=
  ⟨fun _ => .error ⟨"o"⟩, fun _ => .error ⟨"o"⟩,
   fun p => if p = "SC" then .ok ⟨(10, 10), fun _ c r => srcValC c r⟩ else .error ⟨"o"⟩⟩

/-- A subdataset whose `description()` fails (e.g. invalid UTF-8). -/
def subBad : SubDataset := ⟨.error ⟨"utf8"⟩, .ok gt10, "E", [], .ok ()⟩

def pdC9 : ProductDataset := ⟨.ok "P9", [⟨"SUBDATASETS", "SUBDATASET_1_NAME", "SX"⟩]⟩

def envC9 : GdalEnv :=
  ⟨fun p => if p = "P9" then .ok pdC9 else .error ⟨"open"⟩,
   fun p => if p = "SX" then .ok subBad else .error ⟨"open"⟩,
   fun _ => .error ⟨"o"⟩⟩

/-- A True-Colour-Image subdataset: its identifier contains `"TCI"`. -/
def subTCI : SubDataset :=
  ⟨.ok "S_TCI_X", .ok gt10, "E", [.ok [⟨"", "BANDNAME", "TCI"⟩]], .ok ()⟩

/-- A product whose only subdataset is the TCI composite. -/
def pdC10 : ProductDataset := ⟨.ok "P10", [⟨"SUBDATASETS", "SUBDATASET_1_NAME", "ST"⟩]⟩

def envC10 : GdalEnv :=
  ⟨fun p => if p = "P10" then .ok pdC10 else .error ⟨"open"⟩,
   fun p => if p = "ST" then .ok subTCI else .error ⟨"open"⟩,
   fun _ => .error ⟨"o"⟩⟩

/-- A product with a TCI subdataset and an ordinary 10 m subdataset. -/
def pdC7 : ProductDataset :=
  ⟨.ok "P7", [⟨"SUBDATASETS", "SUBDATASET_1_NAME", "ST"⟩,
              ⟨"SUBDATASETS", "SUBDATASET_2_NAME", "S10"⟩]⟩

def envC7 : GdalEnv :=
  ⟨fun p => if p = "P7" then .ok pdC7 else .error ⟨"open"⟩,
   fun p => if p = "ST" then .ok subTCI else if p = "S10" then .ok sub10
            else .error ⟨"open"⟩,
   fun _ => .error ⟨"o"⟩⟩

/-- The single band retained from `envC7`. -/
def infoB2C7 : BandInfo := ⟨1, "S10", [("BANDNAME", "B2")], "E", ⟨10, 0, 0, 0, 10, 0⟩⟩

/-- The raster `Raster::new envC7 "P7"` evaluates to. -/
def rC7 : Raster := ⟨"P7", [("B2", infoB2C7)], [], "E", ⟨10, 0, 0, 0, 10, 0⟩⟩

/-- Two subdatasets with differing projection strings. -/
def subPA : SubDataset := ⟨.ok "QA", .ok gt10, "E1", [.ok [⟨"", "BANDNAME", "B2"⟩]], .ok ()⟩

def subPB : SubDataset := ⟨.ok "QB", .ok gt20, "E2", [.ok [⟨"", "BANDNAME", "B4"⟩]], .ok ()⟩

def pdC8 : ProductDataset :=
  ⟨.ok "P8", [⟨"SUBDATASETS", "SUBDATASET_1_NAME", "QA"⟩,
              ⟨"SUBDATASETS", "SUBDATASET_2_NAME", "QB"⟩]⟩

def envC8 : GdalEnv :=
  ⟨fun p => if p = "P8" then .ok pdC8 else .error ⟨"open"⟩,
   fun p => if p = "QA" then .ok subPA else if p = "QB" then .ok subPB else .error ⟨"open"⟩,
   fun _ => .error ⟨"o"⟩⟩

/-- The pairs emitted by discovery over `envC8`. -/
def pairsC8 : List (String × BandInfo) :=
  [("B2", ⟨1, "QA", [("BANDNAME", "B2")], "E1", ⟨10, 0, 0, 0, 10, 0⟩⟩),
   ("B4", ⟨1, "QB", [("BANDNAME", "B4")], "E2", ⟨20, 0, 0, 0, 20, 0⟩⟩)]

/-! ## Helper lemmas about the association-list model -/

theorem alLookup_alInsert {α : Type} (m : List (String × α)) (k k' : String) (v : α) :
    alLookup k (alInsert m k' v) = if k' = k then some v else alLookup k m := by
  induction m with
  | nil => simp [alInsert, alLookup]
  | cons p m ih =>
    obtain ⟨pk, pv⟩ := p
    by_cases hpk : pk = k'
    · subst hpk
      simp only [alInsert, if_pos rfl, alLookup]
      by_cases hk : pk = k
      · simp [hk]
      · simp [hk, alLookup]
    · simp only [alInsert, if_neg hpk, alLookup]
      by_cases hk : pk = k
      · subst hk
        simp only [if_pos rfl]
        have : ¬ k' = pk := fun h => hpk h.symm
        simp [this]
      · simp [hk, ih]

theorem alFromList_concat {α : Type} (ps : List (String × α)) (p : String × α) :
    alFromList (ps ++ [p]) = alInsert (alFromList ps) p.1 p.2 := by
  simp [alFromList, List.foldl_append]

theorem alLookup_alFromList {α : Type} (ps : List (String × α)) (k : String) :
    alLookup k (alFromList ps) = ((ps.filter fun p => p.1 = k).getLast?).map Prod.snd := by
  induction ps using List.reverseRecOn with
  | nil => simp [alFromList, alLookup]
  | append_singleton ps p ih =>
    rw [alFromList_concat, alLookup_alInsert, List.filter_append]
    by_cases hk : p.1 = k
    · simp [hk]
    · have : (List.filter (fun p => decide (p.1 = k)) [p]) = [] := by simp [hk]
      simp [hk, this, ih]

theorem getLast?_mem {α : Type _} : ∀ {l : List α} {a : α}, l.getLast? = some a → a ∈ l
  | [], _, h => by simp at h
  | [x], a, h => by
      simp only [List.getLast?_singleton, Option.some.injEq] at h
      simp [h]
  | x :: y :: l, a, h => by
      rw [List.getLast?_cons_cons] at h
      exact List.mem_cons_of_mem x (getLast?_mem h)

theorem mem_of_alLookup_alFromList {α : Type} {ps : List (String × α)} {k : String} {v : α}
    (h : alLookup k (alFromList ps) = some v) : (k, v) ∈ ps := by
  rw [alLookup_alFromList] at h
  obtain ⟨q, hq, hv⟩ : ∃ q, (ps.filter fun p => p.1 = k).getLast? = some q ∧ q.2 = v := by
    cases hg : (ps.filter fun p => p.1 = k).getLast? with
    | none => rw [hg] at h; simp at h
    | some q => rw [hg] at h; exact ⟨q, rfl, by simpa using h⟩
  have hmem : q ∈ ps.filter fun p => p.1 = k := getLast?_mem hq
  have hkey : q.1 = k := by simpa using (List.of_mem_filter hmem)
  have : q ∈ ps := List.mem_of_mem_filter hmem
  have hq2 : q = (k, v) := by
    obtain ⟨q1, q2⟩ := q
    simp only at hkey hv
    rw [hkey, hv]
  rwa [hq2] at this

/-! ## Helper lemmas about the `reduce` combinator -/

/-- The fold underlying `reduceHighestRes` returns a transform whose
`m11` is minimal over seed and list, and which is the *last* element (in
iteration order) attaining that minimum. -/
theorem foldl_pickHighestRes_spec (t0 : PixelTransform) (l : List PixelTransform) :
    (∀ u ∈ t0 :: l, (l.foldl pickHighestRes t0).m11 ≤ u.m11) ∧
    ((t0 :: l).filter (fun u => u.m11 = (l.foldl pickHighestRes t0).m11)).getLast?
      = some (l.foldl pickHighestRes t0) := by
  induction l using List.reverseRecOn with
  | nil => simp
  | append_singleton l h ih =>
    obtain ⟨ihmin, ihlast⟩ := ih
    rw [List.foldl_append] at *
    simp only [List.foldl_cons, List.foldl_nil]
    set r := l.foldl pickHighestRes t0 with hr
    by_cases hlt : r.m11 < h.m11
    · have hpick : pickHighestRes r h = r := by simp [pickHighestRes, hlt]
      simp only [hpick]
      constructor
      · intro u hu
        rw [show t0 :: (l ++ [h]) = (t0 :: l) ++ [h] from rfl] at hu
        rcases List.mem_append.1 hu with hu | hu
        · exact ihmin u hu
        · simp only [List.mem_singleton] at hu
          subst hu
          exact le_of_lt hlt
      · rw [show t0 :: (l ++ [h]) = (t0 :: l) ++ [h] from rfl, List.filter_append]
        have hne : (List.filter (fun u => decide (u.m11 = r.m11)) [h]) = [] := by
          simp [ne_of_gt hlt]
        rw [hne, List.append_nil]
        exact ihlast
    · have hpick : pickHighestRes r h = h := by simp [pickHighestRes, hlt]
      have hle : h.m11 ≤ r.m11 := le_of_not_lt hlt
      simp only [hpick]
      constructor
      · intro u hu
        rw [show t0 :: (l ++ [h]) = (t0 :: l) ++ [h] from rfl] at hu
        rcases List.mem_append.1 hu with hu | hu
        · exact le_trans hle (ihmin u hu)
        · simp only [List.mem_singleton] at hu
          subst hu
          exact le_refl _
      · rw [show t0 :: (l ++ [h]) = (t0 :: l) ++ [h] from rfl, List.filter_append]
        have hself : (List.filter (fun u => decide (u.m11 = h.m11)) [h]) = [h] := by simp
        rw [hself]
        exact List.getLast?_concat _

/-- `reduceHighestRes` on a non-empty list: minimality plus
last-minimizer tie-breaking. -/
theorem reduceHighestRes_spec {l : List PixelTransform} {t : PixelTransform}
    (h : reduceHighestRes l = some t) :
    (∀ u ∈ l, t.m11 ≤ u.m11) ∧
    (l.filter (fun u => u.m11 = t.m11)).getLast? = some t := by
  cases l with
  | nil => simp [reduceHighestRes] at h
  | cons t0 ts =>
    simp only [reduceHighestRes, Option.some.injEq] at h
    subst h
    exact foldl_pickHighestRes_spec t0 ts

/-! ## Helper lemmas about `dedupFirst` -/

theorem mem_dedupFirst_aux (l : List String) (acc : List String) (x : String)
    (hx : x ∈ acc ∨ x ∈ l) :
    x ∈ l.foldl (fun acc s => if s ∈ acc then acc else acc ++ [s]) acc := by
  induction l generalizing acc with
  | nil => simpa using hx.resolve_right (by simp)
  | cons s l ih =>
    simp only [List.foldl_cons]
    by_cases hs : s ∈ acc
    · rw [if_pos hs]
      refine ih acc ?_
      rcases hx with hx | hx
      · exact Or.inl hx
      · rcases List.mem_cons.1 hx with rfl | hx
        · exact Or.inl hs
        · exact Or.inr hx
    · rw [if_neg hs]
      refine ih (acc ++ [s]) ?_
      rcases hx with hx | hx
      · exact Or.inl (List.mem_append.2 (Or.inl hx))
      · rcases List.mem_cons.1 hx with rfl | hx
        · exact Or.inl (List.mem_append.2 (Or.inr (by simp)))
        · exact Or.inr hx

theorem mem_dedupFirst {l : List String} {x : String} (hx : x ∈ l) : x ∈ dedupFirst l :=
  mem_dedupFirst_aux l [] x (Or.inr hx)

theorem eq_of_dedupFirst_singleton {l : List String} {p : String}
    (h : dedupFirst l = [p]) {x : String} (hx : x ∈ l) : x = p := by
  have := mem_dedupFirst hx
  rw [h] at this
  simpa using this

/-! ## Helper lemmas about discovery -/

theorem parseBandsLoop_path {path : String} {geo : PixelTransform} {proj : String} :
    ∀ {rbs : List (Except GdalErr (List MetaEntry))} {idx : ℕ}
      {bs : List (String × BandInfo)},
      parseBandsLoop path geo proj rbs idx = .ok bs →
      ∀ p ∈ bs, p.2.path = path ∧ p.2.proj = proj ∧ p.2.geo_transform = geo := by
  intro rbs
  induction rbs with
  | nil =>
    intro idx bs h p hp
    simp only [parseBandsLoop] at h
    cases h
    simp at hp
  | cons rb rbs ih =>
    intro idx bs h p hp
    simp only [parseBandsLoop] at h
    cases rb with
    | error e => cases h
    | ok entries =>
      simp only at h
      cases hname : alLookup "BANDNAME" (bandMetaOf entries) with
      | none => rw [hname] at h; cases h
      | some name =>
        rw [hname] at h
        cases hrest : parseBandsLoop path geo proj rbs (idx + 1) with
        | error e => rw [hrest] at h; cases h
        | ok rest =>
          rw [hrest] at h
          cases h
          rcases List.mem_cons.1 hp with rfl | hp
          · exact ⟨rfl, rfl, rfl⟩
          · exact ih hrest p hp

theorem parse_subdataset_path {d : SubDataset} {bs : List (String × BandInfo)} {s : String}
    (hd : d.descr = .ok s) (h : parse_subdataset d = .ok bs) :
    ∀ p ∈ bs, p.2.path = s ∧ p.2.proj = d.projection := by
  intro p hp
  unfold parse_subdataset at h
  rw [hd] at h
  simp only at h
  cases hgt : d.geoTransform with
  | error e => rw [hgt] at h; cases h
  | ok gt =>
    rw [hgt] at h
    simp only at h
    cases hloop : parseBandsLoop s (transform_from_gdal gt) d.projection d.rasterbands 0 with
    | error e => rw [hloop] at h; cases h
    | ok bs' =>
      rw [hloop] at h
      simp only at h
      cases hcl : d.closeResult with
      | error e => rw [hcl] at h; cases h
      | ok u =>
        rw [hcl] at h
        cases h
        obtain ⟨h1, h2, _⟩ := parseBandsLoop_path hloop p hp
        exact ⟨h1, h2⟩

/-- Every pair emitted by the subdataset pipeline comes from a
subdataset whose description succeeded and does not contain `"TCI"`. -/
theorem collectSubBands_no_tci :
    ∀ {subs : List SubDataset} {pairs : List (String × BandInfo)},
      collectSubBands subs = .done (.ok pairs) →
      ∀ p ∈ pairs, strContainsSub p.2.path "TCI" = false := by
  intro subs
  induction subs with
  | nil =>
    intro pairs h p hp
    simp only [collectSubBands] at h
    cases h
    simp at hp
  | cons d rest ih =>
    intro pairs h p hp
    simp only [collectSubBands] at h
    cases hd : d.descr with
    | error e => rw [hd] at h; cases h
    | ok s =>
      rw [hd] at h
      simp only at h
      by_cases htci : strContainsSub s "TCI"
      · rw [if_pos htci] at h
        exact ih h p hp
      · rw [if_neg htci] at h
        cases hps : parse_subdataset d with
        | error e => rw [hps] at h; cases h
        | ok bs =>
          rw [hps] at h
          simp only at h
          cases hrest : collectSubBands rest with
          | panics => rw [hrest] at h; cases h
          | done res =>
            cases res with
            | error e => rw [hrest] at h; cases h
            | ok rest' =>
              rw [hrest] at h
              simp only at h
              cases h
              rcases List.mem_append.1 hp with hp | hp
              · obtain ⟨hpath, _⟩ := parse_subdataset_path hd hps p hp
                rw [hpath]
                exact Bool.of_not_eq_true htci
              · exact ih hrest p hp

/-- Inversion of a successful `Raster::new`: the pipeline stages it ran
and how the resulting `Raster`'s fields were computed. -/
theorem rasterNew_ok_inv {env : GdalEnv} {path : String} {r : Raster}
    (h : Raster.new env path = .done (.ok r)) :
    ∃ pd md subs pairs,
      env.openProduct path = .ok pd ∧
      parse_dataset env pd = .ok (md, subs) ∧
      collectSubBands subs = .done (.ok pairs) ∧
      r.path = path ∧
      r.bands_info = alFromList pairs ∧
      r.metadata = md ∧
      (dedupFirst ((alFromList pairs).map (fun p => p.2.proj))).length = 1 ∧
      (dedupFirst ((alFromList pairs).map (fun p => p.2.proj))).getLast? = some r.proj ∧
      reduceHighestRes ((alFromList pairs).map (fun p => p.2.geo_transform))
        = some r.highest_resolution_transform := by
  unfold Raster.new at h
  cases hop : env.openProduct path with
  | error e => rw [hop] at h; cases h
  | ok pd =>
    rw [hop] at h
    simp only at h
    cases hpd : parse_dataset env pd with
    | error e => rw [hpd] at h; cases h
    | ok msubs =>
      obtain ⟨md, subs⟩ := msubs
      rw [hpd] at h
      simp only at h
      cases hcs : collectSubBands subs with
      | panics => rw [hcs] at h; cases h
      | done res =>
        cases res with
        | error e => rw [hcs] at h; cases h
        | ok pairs =>
          rw [hcs] at h
          simp only at h
          refine ⟨pd, md, subs, pairs, rfl, hpd, hcs, ?_⟩
          cases hlen : (dedupFirst ((alFromList pairs).map (fun p => p.2.proj))).length with
          | zero =>
            rw [hlen] at h
            simp only at h
            cases hdescr : pd.descr with
            | error e => rw [hdescr] at h; cases h
            | ok d => rw [hdescr] at h; cases h
          | succ n =>
            cases n with
            | zero =>
              rw [hlen] at h
              simp only at h
              cases hred : reduceHighestRes ((alFromList pairs).map (fun p => p.2.geo_transform)) with
              | none => rw [hred] at h; cases h
              | some hrt =>
                rw [hred] at h
                simp only at h
                cases hlast : (dedupFirst ((alFromList pairs).map (fun p => p.2.proj))).getLast? with
                | none => rw [hlast] at h; cases h
                | some pr =>
                  rw [hlast] at h
                  simp only at h
                  cases h
                  exact ⟨rfl, rfl, rfl, rfl, rfl, rfl⟩
            | succ m =>
              rw [hlen] at h
              simp only at h
              cases hdescr : pd.descr with
              | error e => rw [hdescr] at h; cases h
              | ok d => rw [hdescr] at h; cases h

/-! ## Helper lemmas about the read path -/

theorem listGetD_of_getElem? {α : Type _} :
    ∀ {l : List α} {n : ℕ} {a d : α}, l[n]? = some a → l.getD n d = a
  | [], n, a, d, h => by simp at h
  | x :: l, 0, a, d, h => by
      simp only [List.getElem?_cons_zero, Option.some.injEq] at h
      simp [List.getD, h]
  | x :: l, n + 1, a, d, h => by
      simp only [List.getElem?_cons_succ] at h
      simpa [List.getD] using listGetD_of_getElem? (l := l) (n := n) (d := d) h

/-- The eager name-resolution of `read_bands`: if some requested name is
missing, resolution fails with `BandNotFound` at the first missing name. -/
theorem resolveBands_firstMissing {r : Raster} :
    ∀ {names : List String} {m : String},
      names.find? (fun n => (alLookup n r.bands_info).isNone) = some m →
      r.resolveBands names = .error (.BandNotFound m) := by
  intro names
  induction names with
  | nil => intro m h; simp at h
  | cons b bs ih =>
    intro m h
    simp only [List.find?] at h
    by_cases hb : (alLookup b r.bands_info).isNone
    · rw [hb] at h
      simp only at h
      cases h
      have hnone : alLookup b r.bands_info = none := Option.isNone_iff_eq_none.1 hb
      simp only [Raster.resolveBands, Raster.band_info, hnone]
    · rw [Bool.not_eq_true] at hb
      rw [hb] at h
      simp only at h
      cases hlk : alLookup b r.bands_info with
      | none => rw [hlk] at hb; simp at hb
      | some bi => simp only [Raster.resolveBands, Raster.band_info, hlk, ih h]

/-- A band with an invertible transform whose dataset opens successfully
never fails inside the per-band loop. -/
theorem perBandRead_ok {env : GdalEnv} {hrt : PixelTransform} {off : ℤ × ℤ} {win : ℕ × ℕ}
    {p : String × BandInfo} (hinv : (p.2.geo_transform.tryInverse).isSome)
    (hopen : ∃ rd, env.openRead p.2.path = .ok rd) :
    ∃ br, perBandRead env hrt off win p = .ok br := by
  obtain ⟨ti, hti⟩ := Option.isSome_iff_exists.1 hinv
  obtain ⟨rd, hrd⟩ := hopen
  simp only [perBandRead, hti, hrd]
  exact ⟨_, rfl⟩

/-- A band with a singular transform fails the per-band loop with
`BandTransformNotInvertible` before any dataset is opened. -/
theorem perBandRead_singular {env : GdalEnv} {hrt : PixelTransform} {off : ℤ × ℤ}
    {win : ℕ × ℕ} {p : String × BandInfo} (h : p.2.geo_transform.tryInverse = none) :
    perBandRead env hrt off win p = .error (.BandTransformNotInvertible p.1) := by
  simp only [perBandRead, h]

/-- The collect over per-band reads surfaces the first singular band's
error, provided the bands before it are invertible and openable. -/
theorem perBandReads_error_at {env : GdalEnv} {hrt : PixelTransform} {off : ℤ × ℤ}
    {win : ℕ × ℕ} {b : String} {bi : BandInfo} {post : List (String × BandInfo)} :
    ∀ {pre : List (String × BandInfo)},
      (∀ p ∈ pre, (p.2.geo_transform.tryInverse).isSome ∧
        ∃ rd, env.openRead p.2.path = .ok rd) →
      bi.geo_transform.tryInverse = none →
      perBandReads env hrt off win (pre ++ (b, bi) :: post)
        = .error (.BandTransformNotInvertible b) := by
  intro pre
  induction pre with
  | nil =>
    intro _ hb
    simp only [List.nil_append, perBandReads]
    rw [perBandRead_singular (p := (b, bi)) hb]
  | cons q pre ih =>
    intro hpre hb
    obtain ⟨hinv, hopen⟩ := hpre q (by simp)
    obtain ⟨br, hbr⟩ := @perBandRead_ok env hrt off win q hinv hopen
    have hih := ih (fun p hp => hpre p (List.mem_cons_of_mem q hp)) hb
    simp only [List.cons_append, perBandReads, hbr, List.append_eq, hih]

/-- Inversion of a successful `read_bands`: the resolution and the reads
succeeded, every cell is in bounds, and the cube is the assembly array. -/
theorem readBands_ok_inv {env : GdalEnv} {r : Raster} {names : List String}
    {off : ℤ × ℤ} {win : ℕ × ℕ} {cube : Array3}
    (h : Raster.read_bands env r names off win = .done (.ok cube)) :
    ∃ infos brs,
      r.resolveBands names = .ok infos ∧
      perBandReads env r.highest_resolution_transform off win infos = .ok brs ∧
      allCellsOk names.length win brs = true ∧
      cube.shape = (names.length, win.1, win.2) ∧
      ∀ c x y, cube.get c x y = (assembleCell (brs.getD c dummyBr) x y).getD 0 := by
  unfold Raster.read_bands at h
  cases hres : r.resolveBands names with
  | error e => rw [hres] at h; cases h
  | ok infos =>
    rw [hres] at h
    simp only at h
    cases hbrs : perBandReads env r.highest_resolution_transform off win infos with
    | error e => rw [hbrs] at h; cases h
    | ok brs =>
      rw [hbrs] at h
      simp only [assemble] at h
      by_cases hall : allCellsOk names.length win brs = true
      · rw [if_pos hall] at h
        cases h
        exact ⟨infos, brs, rfl, hbrs, hall, rfl, fun c x y => rfl⟩
      · rw [if_neg hall] at h
        cases h

/-- In-bounds extraction from the all-cells check. -/
theorem allCellsOk_cell {n : ℕ} {win : ℕ × ℕ} {brs : List (Array2 × PixelTransform)}
    {c x y : ℕ} (h : allCellsOk n win brs = true)
    (hc : c < n) (hx : x < win.1) (hy : y < win.2) :
    (assembleCell (brs.getD c dummyBr) x y).isSome := by
  unfold allCellsOk at h
  have h1 := (List.all_eq_true.1 h) c (List.mem_range.2 hc)
  have h2 := (List.all_eq_true.1 h1) x (List.mem_range.2 hx)
  exact (List.all_eq_true.1 h2) y (List.mem_range.2 hy)

/-- The value of an in-bounds assembled cell: the window array indexed at
the `as usize`-cast of the transformed output coordinates. -/
theorem assembleCell_isSome_eq {br : Array2 × PixelTransform} {x y : ℕ}
    (h : (assembleCell br x y).isSome) :
    assembleCell br x y
      = some (br.1.get (ratAsUsize (br.2.transformPoint (x : ℚ) (y : ℚ)).1)
                       (ratAsUsize (br.2.transformPoint (x : ℚ) (y : ℚ)).2)) := by
  unfold assembleCell at *
  by_cases hb : ratAsUsize (br.2.transformPoint (x : ℚ) (y : ℚ)).1 < br.1.shape.1 ∧
      ratAsUsize (br.2.transformPoint (x : ℚ) (y : ℚ)).2 < br.1.shape.2
  · rw [if_pos hb]
  · rw [if_neg hb] at h
    simp at h

/-! ## The claims -/

/-- C1, counterexample.  The claim says the retained `BandInfo` for a
name is the occurrence with the smallest `m11` and that on collision the
existing entry is kept when its `m11` is strictly smaller.  On a product
emitting `B2` at 10 m and then `B2` at 20 m, `Raster::new` retains the
20 m occurrence (its plain `HashMap::from_iter` always overwrites), not
the 10 m one the claim demands. -/
theorem C1_counterexample :
    retainedM11 (Raster.new envC1 "P1") "B2" = some 20 ∧
    ¬ retainedM11 (Raster.new envC1 "P1") "B2" = some 10 := by
  exact ⟨by decide, by decide⟩

/-- C1, amended.  `Raster::new` folds the emitted pairs with a plain
`HashMap::from_iter`, so on a name collision the incoming entry always
overwrites: the retained `BandInfo` is the last-emitted occurrence of
the name, regardless of `m11` (first conjunct).  The resolution-aware
dedup lives only in the unused `Bands::insert` of
`src/components/band.rs`, and it keeps the existing entry iff its
`resolution()` — `m11` truncated to `u8` — is strictly smaller than the
incoming one's (second conjunct). -/
theorem C1_amended_dedup :
    (∀ (ps : List (String × BandInfo)) (k : String),
      alLookup k (alFromList ps)
        = ((ps.filter fun p => p.1 = k).getLast?).map Prod.snd) ∧
    (∀ (m : List (String × BandInfoB)) (k : String) (v : BandInfoB),
      alLookup k (bandsInsert m k v)
        = some (match alLookup k m with
                | some v' => if v'.resolution < v.resolution then v' else v
                | none => v)) := by
  constructor
  · exact fun ps k => alLookup_alFromList ps k
  · intro m k v
    unfold bandsInsert
    cases hlk : alLookup k m with
    | none =>
      simp only
      rw [alLookup_alInsert, if_pos rfl]
    | some v' =>
      simp only
      by_cases hres : v'.resolution < v.resolution
      · rw [if_pos hres, if_pos hres, hlk]
      · rw [if_neg hres, if_neg hres, alLookup_alInsert, if_pos rfl]

/-- C2, counterexample.  Claim: ties on the minimal `m11` are broken by
the first-seen band's transform.  With two retained bands `B2` (seen
first) and `B3` both at `m11 = 10` but with different transforms, the
`reduce` keeps `prev` only when strictly smaller, so the raster's
reference transform is `B3`'s, not the first-seen `B2`'s. -/
theorem C2_counterexample :
    refTOf (Raster.new envC2 "P2") = some (transform_from_gdal ⟨5, 10, 0, 0, 0, 10⟩) ∧
    ¬ refTOf (Raster.new envC2 "P2") = some (transform_from_gdal ⟨0, 10, 0, 0, 0, 10⟩) ∧
    (transform_from_gdal ⟨5, 10, 0, 0, 0, 10⟩).m11
      = (transform_from_gdal ⟨0, 10, 0, 0, 0, 10⟩).m11 := by
  exact ⟨by decide, by decide, by decide⟩

/-- C2, amended.  After a successful open the reference transform does
minimise `m11` over all retained bands, but a tie on the minimal `m11`
is broken by the *last* transform in band-map iteration order, not the
first-seen one: the reference transform is the last element of the
band-map's transforms whose `m11` equals the minimum. -/
theorem C2_amended_reference_transform {env : GdalEnv} {path : String} {r : Raster}
    (h : Raster.new env path = .done (.ok r)) :
    (∀ p ∈ r.bands_info, r.highest_resolution_transform.m11 ≤ p.2.geo_transform.m11) ∧
    ((r.bands_info.map (fun p => p.2.geo_transform)).filter
        (fun t => t.m11 = r.highest_resolution_transform.m11)).getLast?
      = some r.highest_resolution_transform := by
  obtain ⟨pd, md, subs, pairs, _, _, _, _, hbands, _, _, _, hred⟩ := rasterNew_ok_inv h
  have hspec := reduceHighestRes_spec hred
  rw [hbands]
  exact ⟨fun p hp => hspec.1 _ (List.mem_map_of_mem _ hp), hspec.2⟩

/-- C2, witness: the amended statement applied to the concrete tied
fixture. -/
theorem C2_witness :
    (∀ p ∈ rC2.bands_info, rC2.highest_resolution_transform.m11 ≤ p.2.geo_transform.m11) ∧
    ((rC2.bands_info.map (fun p => p.2.geo_transform)).filter
        (fun t => t.m11 = rC2.highest_resolution_transform.m11)).getLast?
      = some rC2.highest_resolution_transform :=
  @C2_amended_reference_transform envC2 "P2" rC2 (by rfl)

/-- C3.  Whenever `read_bands` succeeds it returns a cube of shape
exactly `(names.length, size.0, size.1)`; in particular a successful
read of size `(0, 0)` returns an empty cube of shape
`(names.length, 0, 0)`. -/
theorem C3_read_shape {env : GdalEnv} {r : Raster} {names : List String}
    {off : ℤ × ℤ} {win : ℕ × ℕ} {cube : Array3}
    (h : Raster.read_bands env r names off win = .done (.ok cube)) :
    cube.shape = (names.length, win.1, win.2) ∧
    (win = (0, 0) → cube.shape = (names.length, 0, 0)) := by
  obtain ⟨_, _, _, _, _, hshape, _⟩ := readBands_ok_inv h
  exact ⟨hshape, fun hw => by rw [hshape, hw]⟩

/-- C3, witness: a concrete successful two-by-two read of the 20 m band
`B4` under the 10 m reference. -/
theorem C3_witness :
    shape3Of (Raster.read_bands envFix rFix ["B4"] (0, 0) (2, 2)) = some (1, 2, 2) := by
  obtain ⟨cube, hc⟩ : ∃ cube, Raster.read_bands envFix rFix ["B4"] (0, 0) (2, 2)
      = .done (.ok cube) := by with_unfolding_all exact ⟨_, rfl⟩
  have hsh := (C3_read_shape hc).1
  rw [hc]
  simp only [shape3Of]
  simp [hsh]

/-- C4, counterexample.  The claim says output cell `(c, x, y)` holds
the *source* value at `⌊T_band (x, y)⌋`.  The code indexes the
*window-read* array with those absolute coordinates, so whenever the
corrected window offset is non-zero the two differ: for the band `B`
built on `gt20shift`, `T_band (0,0) = (5/4, 5/4)`, the claim predicts
the source value at `(1, 1)` (namely 11), but the read returns the
source value at `(2, 2)` (namely 22), the window offset `(1, 1)` plus
`(1, 1)`. -/
theorem C4_counterexample :
    cellOf (Raster.read_bands envCex rCex ["B"] (0, 0) (4, 4)) 0 0 0 = some (srcValC 2 2) ∧
    srcValC 2 2 = 22 ∧
    (infoBc.geo_transform.tryInverse).map
        (fun ti => (ti * rCex.highest_resolution_transform).transformPoint 0 0)
      = some (5/4, 5/4) ∧
    ratAsUsize (5/4) = 1 ∧
    srcValC 1 1 = 11 ∧
    ¬ cellOf (Raster.read_bands envCex rCex ["B"] (0, 0) (4, 4)) 0 0 0
        = some (srcValC 1 1) := by
  refine ⟨?_, by decide, ?_, ?_, by decide, ?_⟩
  · with_unfolding_all decide
  · with_unfolding_all decide
  · with_unfolding_all decide
  · with_unfolding_all decide

/-- C4, amended.  Per requested band the code composes
`T_band = inverse(band.geo_transform) ∘ reference_transform` and fills
output cell `(c, x, y)` with the *window-read* array indexed at the
`as usize` truncation of `T_band (x, y)` — i.e. the source value at
`corrected_offset + ⌊T_band (x, y)⌋`, which equals the claim's
`source[⌊T_band (x, y)⌋]` exactly when the corrected offset is `(0,0)`
(first conjunct, the general assembly formula).  The claim's concrete
example holds: for the shared-origin 20 m band `B4` under the 10 m
reference, all four cells of a `(0,0)`–`(2,2)` read carry the source
`(0, 0)` value (second conjunct). -/
theorem C4_amended_assembly :
    (∀ (env : GdalEnv) (r : Raster) (names : List String) (off : ℤ × ℤ) (win : ℕ × ℕ)
       (cube : Array3) (infos : List (String × BandInfo))
       (brs : List (Array2 × PixelTransform)) (c x y : ℕ) (arr : Array2)
       (T : PixelTransform),
      Raster.read_bands env r names off win = .done (.ok cube) →
      r.resolveBands names = .ok infos →
      perBandReads env r.highest_resolution_transform off win infos = .ok brs →
      brs[c]? = some (arr, T) →
      c < names.length → x < win.1 → y < win.2 →
      cube.get c x y
        = arr.get (ratAsUsize (T.transformPoint (x : ℚ) (y : ℚ)).1)
                  (ratAsUsize (T.transformPoint (x : ℚ) (y : ℚ)).2)) ∧
    (∀ x y : ℕ, x < 2 → y < 2 →
      cellOf (Raster.read_bands envFix rFix ["B4"] (0, 0) (2, 2)) 0 x y
        = some (srcVal 0 0)) := by
  constructor
  · intro env r names off win cube infos brs c x y arr T h hinfos hbrs hat hc hx hy
    obtain ⟨infos', brs', hinfos', hbrs', hall, _, hget⟩ := readBands_ok_inv h
    rw [hinfos] at hinfos'
    cases hinfos'
    rw [hbrs] at hbrs'
    cases hbrs'
    have hgd : brs.getD c dummyBr = (arr, T) := listGetD_of_getElem? hat
    have hsome := allCellsOk_cell hall hc hx hy
    rw [hget c x y, hgd, assembleCell_isSome_eq (by rwa [hgd] at hsome)]
    rfl
  · intro x y hx hy
    interval_cases x <;> interval_cases y <;> with_unfolding_all decide

/-- C4, witness: the assembly formula applied at the concrete `B4`
fixture, cell `(0, 0, 0)`. -/
theorem C4_witness :
    cellOf (Raster.read_bands envFix rFix ["B4"] (0, 0) (2, 2)) 0 0 0 = some (srcVal 0 0) := by
  obtain ⟨cube, hc⟩ : ∃ cube, Raster.read_bands envFix rFix ["B4"] (0, 0) (2, 2)
      = .done (.ok cube) := by with_unfolding_all exact ⟨_, rfl⟩
  have hinfos : rFix.resolveBands ["B4"] = .ok infosB4 := by with_unfolding_all rfl
  have hbrs : perBandReads envFix rFix.highest_resolution_transform (0, 0) (2, 2) infosB4
      = .ok brsB4 := by with_unfolding_all rfl
  have hcell := C4_amended_assembly.1 envFix rFix ["B4"] (0, 0) (2, 2) cube infosB4 brsB4
    0 0 0 arrB4 tHalfFix hc hinfos hbrs rfl (by decide) (by decide) (by decide)
  rw [hc]
  simp only [cellOf]
  rw [hcell]
  with_unfolding_all rfl

/-- C5.  If any requested name is absent from the band map, `read_bands`
fails with `BandNotFound` carrying the first such name — for *every*
environment, so the failure happens during name resolution, before any
window computation or pixel I/O is consulted. -/
theorem C5_band_not_found {env : GdalEnv} {r : Raster} {names : List String}
    {off : ℤ × ℤ} {win : ℕ × ℕ} {m : String}
    (h : names.find? (fun n => (alLookup n r.bands_info).isNone) = some m) :
    Raster.read_bands env r names off win = .done (.error (.BandNotFound m)) ∧
    m ∈ names ∧ alLookup m r.bands_info = none := by
  have hres := resolveBands_firstMissing h
  refine ⟨?_, List.mem_of_find?_eq_some h, ?_⟩
  · unfold Raster.read_bands
    rw [hres]
  · have hp := List.find?_some h
    simpa using hp

/-- C5, witness: requesting the unknown name `ZZ` on the read fixture
fails with `BandNotFound "ZZ"` in an environment whose every dataset
open fails — no I/O was reachable. -/
theorem C5_witness :
    Raster.read_bands envC9 rFix ["ZZ"] (0, 0) (1, 1)
      = .done (.error (.BandNotFound "ZZ")) :=
  (@C5_band_not_found envC9 rFix ["ZZ"] (0, 0) (1, 1) "ZZ" (by decide)).1

/-- C6.  When the requested bands resolve and the first one with a
singular geo-transform is `b` (every earlier requested band being
invertible and openable), `read_bands` fails with
`BandTransformNotInvertible b`; and every geo-transform built from a
6-tuple `(_, 0, 0, _, 0, 0)` is singular. -/
theorem C6_singular_transform {env : GdalEnv} {r : Raster} {names : List String}
    {off : ℤ × ℤ} {win : ℕ × ℕ} {pre post : List (String × BandInfo)}
    {b : String} {bi : BandInfo}
    (hres : r.resolveBands names = .ok (pre ++ (b, bi) :: post))
    (hpre : ∀ p ∈ pre, (p.2.geo_transform.tryInverse).isSome ∧
      ∃ rd, env.openRead p.2.path = .ok rd)
    (hsing : bi.geo_transform.tryInverse = none) :
    Raster.read_bands env r names off win
      = .done (.error (.BandTransformNotInvertible b)) ∧
    (∀ g0 g3 : ℚ, (transform_from_gdal ⟨g0, 0, 0, g3, 0, 0⟩).tryInverse = none) := by
  constructor
  · unfold Raster.read_bands
    rw [hres]
    simp only
    rw [perBandReads_error_at hpre hsing]
  · intro g0 g3
    simp [transform_from_gdal, PixelTransform.tryInverse, PixelTransform.det]

/-- C6, witness: requesting the invertible `B2` followed by the band `S`
built from `(7, 0, 0, 9, 0, 0)` fails with
`BandTransformNotInvertible "S"`. -/
theorem C6_witness :
    Raster.read_bands envFix rSing ["B2", "S"] (0, 0) (1, 1)
      = .done (.error (.BandTransformNotInvertible "S")) :=
  (@C6_singular_transform envFix rSing ["B2", "S"] (0, 0) (1, 1)
    [("B2", infoB2f)] [] "S" infoSing
    (by rfl)
    (by
      intro p hp
      simp only [List.mem_singleton] at hp
      subst hp
      exact ⟨by with_unfolding_all decide, ⟨_, by rfl⟩⟩)
    (by with_unfolding_all decide)).1

/-- C7.  Every band retained in a successfully opened raster's band map
comes from a subdataset whose identifier does not contain `"TCI"`: TCI
composites contribute nothing to the band map. -/
theorem C7_tci_excluded {env : GdalEnv} {path : String} {r : Raster}
    {k : String} {bi : BandInfo}
    (hopen : Raster.new env path = .done (.ok r))
    (hlk : alLookup k r.bands_info = some bi) :
    strContainsSub bi.path "TCI" = false := by
  obtain ⟨pd, md, subs, pairs, _, _, hcs, _, hbands, _, _, _, _⟩ := rasterNew_ok_inv hopen
  rw [hbands] at hlk
  exact collectSubBands_no_tci hcs (k, bi) (mem_of_alLookup_alFromList hlk)

/-- C7, witness: opening the product containing both a TCI composite and
an ordinary 10 m subdataset retains only the band whose path `S10` is
TCI-free. -/
theorem C7_witness : strContainsSub infoB2C7.path "TCI" = false :=
  @C7_tci_excluded envC7 "P7" rC7 "B2" infoB2C7 (by rfl) (by decide)

/-- C8.  Discovery collects the distinct CRS strings of the retained
bands; when two or more differ, `open` fails with
`MultipleProjectionsInDataset` carrying the product dataset's
description (its path), and on success `Raster.proj` equals every
retained band's CRS string. -/
theorem C8_single_crs :
    (∀ (env : GdalEnv) (path : String) (pd : ProductDataset)
       (md : List (String × String)) (subs : List SubDataset)
       (pairs : List (String × BandInfo)) (d : String),
      env.openProduct path = .ok pd →
      parse_dataset env pd = .ok (md, subs) →
      collectSubBands subs = .done (.ok pairs) →
      pd.descr = .ok d →
      2 ≤ (dedupFirst ((alFromList pairs).map (fun p => p.2.proj))).length →
      Raster.new env path = .done (.error (.MultipleProjectionsInDataset d))) ∧
    (∀ (env : GdalEnv) (path : String) (r : Raster),
      Raster.new env path = .done (.ok r) →
      ∀ p ∈ r.bands_info, p.2.proj = r.proj) := by
  constructor
  · intro env path pd md subs pairs d hop hpd hcs hdescr hlen
    obtain ⟨n, hn⟩ :
        ∃ n, (dedupFirst ((alFromList pairs).map (fun p => p.2.proj))).length = n + 2 :=
      ⟨(dedupFirst ((alFromList pairs).map (fun p => p.2.proj))).length - 2, by omega⟩
    unfold Raster.new
    rw [hop]
    simp only
    rw [hpd]
    simp only
    rw [hcs]
    simp only
    rw [hn]
    simp only
    rw [hdescr]
  · intro env path r h p hp
    obtain ⟨pd, md, subs, pairs, _, _, _, _, hbands, _, hlen, hlast, _⟩ := rasterNew_ok_inv h
    obtain ⟨q, hq⟩ := List.length_eq_one.1 hlen
    rw [hq] at hlast
    simp only [List.getLast?_singleton, Option.some.injEq] at hlast
    have hmem : p.2.proj ∈ (alFromList pairs).map (fun p => p.2.proj) := by
      rw [← hbands]
      exact List.mem_map_of_mem _ hp
    have := eq_of_dedupFirst_singleton hq hmem
    rw [this, hlast]

/-- C8, witness: a product with CRS strings `E1` and `E2` fails with
`MultipleProjectionsInDataset "P8"`, and on the successfully opened
tied fixture every band's CRS equals the raster's. -/
theorem C8_witness :
    Raster.new envC8 "P8" = .done (.error (.MultipleProjectionsInDataset "P8")) ∧
    (∀ p ∈ rC2.bands_info, p.2.proj = rC2.proj) := by
  constructor
  · exact C8_single_crs.1 envC8 "P8" pdC8 [] [subPA, subPB] pairsC8 "P8"
      (by rfl) (by rfl) (by rfl) rfl (by decide)
  · exact C8_single_crs.2 envC2 "P2" rC2 (by rfl)

/-- C9 (code bug).  The claim says every failure during discovery —
including reading a subdataset's identifier while filtering TCI
subdatasets — is returned as a typed error and no path panics.  The
code calls `.unwrap()` on `dataset.description()` inside the TCI filter
closure (src/lib.rs line 137), so a product whose subdataset's
description fails makes `Raster::new` panic instead of returning the
wrapped `GdalError`: on `envC9` the run panics. -/
theorem C9_description_unwrap_panics :
    Raster.new envC9 "P9" = RunResult.panics ∧
    subBad.descr = .error ⟨"utf8"⟩ :=
  ⟨rfl, rfl⟩

/-- C10.  When discovery retains zero bands the CRS set is empty, so
`Raster::new` does not return an empty raster but fails with
`MultipleProjectionsInDataset` carrying the product description; and
conversely every successfully opened raster has a non-empty band map,
so the reference-transform `reduce` never sees an empty collection. -/
theorem C10_empty_bands :
    (∀ (env : GdalEnv) (path : String) (pd : ProductDataset)
       (md : List (String × String)) (subs : List SubDataset) (d : String),
      env.openProduct path = .ok pd →
      parse_dataset env pd = .ok (md, subs) →
      collectSubBands subs = .done (.ok []) →
      pd.descr = .ok d →
      Raster.new env path = .done (.error (.MultipleProjectionsInDataset d))) ∧
    (∀ (env : GdalEnv) (path : String) (r : Raster),
      Raster.new env path = .done (.ok r) → r.bands_info ≠ []) := by
  constructor
  · intro env path pd md subs d hop hpd hcs hdescr
    unfold Raster.new
    rw [hop]
    simp only
    rw [hpd]
    simp only
    rw [hcs]
    simp only [alFromList, List.foldl_nil, List.map_nil, dedupFirst, List.length_nil]
    rw [hdescr]
  · intro env path r h heq
    obtain ⟨pd, md, subs, pairs, _, _, _, _, hbands, _, hlen, _, _⟩ := rasterNew_ok_inv h
    rw [← hbands, heq] at hlen
    simp [dedupFirst] at hlen

/-- C10, witness: a product whose only subdataset is a TCI composite
retains zero bands and fails with `MultipleProjectionsInDataset "P10"`;
the successfully opened tied fixture has a non-empty band map. -/
theorem C10_witness :
    Raster.new envC10 "P10" = .done (.error (.MultipleProjectionsInDataset "P10")) ∧
    rC2.bands_info ≠ [] := by
  constructor
  · exact C10_empty_bands.1 envC10 "P10" pdC10 [] [subTCI] "P10"
      (by rfl) (by rfl) (by rfl) rfl
  · exact C10_empty_bands.2 envC2 "P2" rC2 (by rfl)

end Sentinel2Array
